import Mathlib

/-!
Shallow embedding of the upload-storage core of the `graphql-upload` demo
repository: the Upload Sink (`storeUpload` in `src/graphql/lib/storeUpload.ts`),
the two Batch Coordinator implementations of `multipleUpload` (the
`Promise.allSettled` version and the `Promise.all` + per-task `try/catch`
version, both in `graphql/resolvers.ts`), and the `uploads` query
(`readdir` over the upload directory).

Modelling choices:
* A file's byte stream is a list of chunks (`chunks`) delivered before the
  stream either finishes (`streamError = none`) or raises (`streamError =
  some e`).  A stream is consumed exactly once, so the outcome is data of
  the handle.
* The filesystem (the StorageLocation) is an association list from stored
  filename to file content.  `createWriteStream` truncates/creates, so a
  write replaces any entry of the same name; `unlink` removes the entry.
* `shortId.generate()` and the success of `fs.unlink` are environmental
  nondeterminism; they are passed in explicitly as a `SinkEnv` per sink
  invocation.
* Concurrency: each sink invocation's effect on the filesystem touches only
  its own stored filename, so a batch is linearised as a fold over the
  tasks in an arbitrary *completion order*, a permutation of the launched
  tasks.  `Promise.allSettled` returns outcomes indexed by input position,
  while the `Promise.all`/push variant appends results in completion order.
-/

/-- One incoming file (`upload.file` in the source): client-supplied
metadata plus the byte stream, modelled by the chunks it delivers and
whether it ends in an error. -/
structure FileUpload where
  filename : String
  mimetype : String
  encoding : String
  chunks : List (List Nat)
  streamError : Option String
deriving Repr, DecidableEq

/-- The result record of `storeUpload` (interface `FileArgs` in the source). -/
structure FileArgs where
  filename : String
  mimetype : String
  encoding : String
deriving Repr, DecidableEq

/-- Environmental nondeterminism of one sink invocation: the value produced
by `shortId.generate()` and whether the `unlink` of a partial file succeeds. -/
structure SinkEnv where
  rid : String
  unlinkOk : Bool
deriving Repr, DecidableEq

/-- The StorageLocation: a flat namespace of stored files, as an association
list from filename to content (a list of bytes). -/
abbrev FS := List (String × List Nat)

/-- Remove a file from the storage location (`fs.unlink`). -/
def fsUnlink (fs : FS) (name : String) : FS :=
  fs.filter (fun e => e.1 != name)

/-- Create/truncate-and-write a file (`fs.createWriteStream` writing all
delivered bytes). -/
def fsWrite (fs : FS) (name : String) (content : List Nat) : FS :=
  (name, content) :: fsUnlink fs name

/-- Look a file up by name. -/
def fsLookup (fs : FS) (name : String) : Option (List Nat) :=
  match fs with
  | [] => none
  | (n, c) :: rest => if n = name then some c else fsLookup rest name

/-- The stored filename composed by `storeUpload`:
`` `${shortId.generate()}-${filename}` ``. -/
def storedName (env : SinkEnv) (file : FileUpload) : String :=
  env.rid ++ "-" ++ file.filename

/-- The Upload Sink, `storeUpload` (src/graphql/lib/storeUpload.ts).
Pipes the upload stream into a write stream at `storedName`.  If the
stream finishes, the file holds every delivered chunk and the promise
resolves with the stored filename and the unchanged mimetype/encoding.
If the stream (or the write) errors, the partially written file is
`unlink`ed — the unlink callback ignores any unlink failure — and the
promise rejects with the original error. -/
def storeUpload (env : SinkEnv) (file : FileUpload) (fs : FS) :
    FS × Except String FileArgs :=
  let storedFileName := storedName env file
  match file.streamError with
  | none =>
      (fsWrite fs storedFileName file.chunks.flatten,
       Except.ok ⟨storedFileName, file.mimetype, file.encoding⟩)
  | some err =>
      let written := fsWrite fs storedFileName file.chunks.flatten
      (if env.unlinkOk then fsUnlink written storedFileName else written,
       Except.error err)

/-- The value/error a sink invocation settles with; it does not depend on
the filesystem contents. -/
def storeOutcome (env : SinkEnv) (file : FileUpload) : Except String FileArgs :=
  (storeUpload env file []).2

/-- The sink's settled result is independent of the filesystem state. -/
theorem storeUpload_snd (env : SinkEnv) (file : FileUpload) (fs : FS) :
    (storeUpload env file fs).2 = storeOutcome env file := by
  cases h : file.streamError <;>
    simp [storeUpload, storeOutcome, h]

theorem fsLookup_fsUnlink_self (fs : FS) (name : String) :
    fsLookup (fsUnlink fs name) name = none := by
  induction fs with
  | nil => rfl
  | cons e rest ih =>
      by_cases h : e.1 = name
      · simpa [fsUnlink, h] using ih
      · simpa [fsUnlink, fsLookup, h] using ih

theorem fsLookup_fsUnlink_other (fs : FS) (name n : String) (h : n ≠ name) :
    fsLookup (fsUnlink fs name) n = fsLookup fs n := by
  induction fs with
  | nil => rfl
  | cons e rest ih =>
      obtain ⟨a, b⟩ := e
      have hne : ¬ name = n := fun hc => h hc.symm
      by_cases he : a = name
      · simp [fsUnlink, List.filter_cons, he, fsLookup, hne] at ih ⊢
        exact ih
      · simp [fsUnlink, List.filter_cons, he, fsLookup] at ih ⊢
        by_cases hn : a = n
        · simp [hn]
        · simp [hn, ih]

theorem fsUnlink_of_lookup_none (fs : FS) (name : String)
    (h : fsLookup fs name = none) : fsUnlink fs name = fs := by
  induction fs with
  | nil => rfl
  | cons e rest ih =>
      obtain ⟨a, b⟩ := e
      by_cases he : a = name
      · simp [fsLookup, he] at h
      · simp [fsLookup, he] at h
        simp [fsUnlink, List.filter_cons, he]
        simpa [fsUnlink] using ih h

theorem fsLookup_fsWrite_self (fs : FS) (name : String) (c : List Nat) :
    fsLookup (fsWrite fs name c) name = some c := by
  simp [fsWrite, fsLookup]

theorem fsLookup_fsWrite_other (fs : FS) (name n : String) (c : List Nat)
    (h : n ≠ name) :
    fsLookup (fsWrite fs name c) n = fsLookup fs n := by
  have hne : ¬ name = n := fun hc => h hc.symm
  simp [fsWrite, fsLookup, hne, fsLookup_fsUnlink_other fs name n h]

/-- A batch task: one launched sink invocation, i.e. one upload handle
together with the environmental nondeterminism of its invocation. -/
abbrev SinkTask := SinkEnv × FileUpload

/-- The diagnostic line written by both `multipleUpload` variants:
`` console.error(`Failed to store upload: ${error}`) ``. -/
def logMsg (e : String) : String :=
  "Failed to store upload: " ++ e

/-- `Promise.allSettled(files.map(storeUpload))`: the settled outcome of
every launched task, indexed by input position (the array returned by
`allSettled` follows the input order whatever the completion order is). -/
def settleAll (tasks : List SinkTask) : List (Except String FileArgs) :=
  tasks.map (fun t => storeOutcome t.1 t.2)

/-- The fulfilled value of a settled result, if any. -/
def okOf : Except String FileArgs → Option FileArgs
  | Except.ok v => some v
  | Except.error _ => none

/-- The diagnostic produced for a settled result, if it was rejected. -/
def errOf : Except String FileArgs → Option String
  | Except.ok _ => none
  | Except.error e => some (logMsg e)

/-- The collection loop of the `Promise.allSettled` variant of
`multipleUpload`: one pass over the settled results, pushing each
fulfilled value onto `storedFileNames` and logging each rejection. -/
def collectSettled : List (Except String FileArgs) → List FileArgs × List String
  | [] => ([], [])
  | Except.ok v :: rest =>
      let (s, l) := collectSettled rest
      (v :: s, l)
  | Except.error e :: rest =>
      let (s, l) := collectSettled rest
      (s, logMsg e :: l)

/-- Filesystem effect of one sink invocation. -/
def runTask (fs : FS) (t : SinkTask) : FS :=
  (storeUpload t.1 t.2 fs).1

/-- Filesystem effect of a batch: the concurrently running invocations
touch pairwise distinct stored names, linearised here as a fold in
completion order. -/
def runTasksFs (completion : List SinkTask) (fs : FS) : FS :=
  completion.foldl runTask fs

/-- The `Promise.allSettled` variant of `multipleUpload`
(graphql/resolvers.ts, first version).  `tasks` lists the launched
invocations in input order; `completion` is the order in which they
actually finish (a permutation of `tasks`), which determines the
filesystem interleaving but not the settled array, since `allSettled`
indexes outcomes by input position.  Returns the final filesystem, the
`storedFileNames` array and the logged diagnostics. -/
def multipleUpload (tasks completion : List SinkTask) (fs : FS) :
    FS × List FileArgs × List String :=
  (runTasksFs completion fs, collectSettled (settleAll tasks))

/-- The `Promise.all` + per-task `try/catch` variant of `multipleUpload`
(graphql/resolvers.ts, second version).  Each task awaits its upload,
stores it and pushes the result onto the shared `storedFileNames` array,
or logs the error; pushes therefore happen in completion order, so the
function consumes the tasks in that order. -/
def multipleUpload2 : List SinkTask → FS → FS × List FileArgs × List String
  | [], fs => (fs, [], [])
  | t :: rest, fs =>
      let fs1 := (storeUpload t.1 t.2 fs).1
      let (fs2, s, l) := multipleUpload2 rest fs1
      match (storeUpload t.1 t.2 fs).2 with
      | Except.ok v => (fs2, v :: s, l)
      | Except.error e => (fs2, s, logMsg e :: l)

/-- `readdir` over the StorageLocation: every entry name, or a storage
error when the directory is unreadable. -/
def readdir (readable : Bool) (fs : FS) : Except String (List String) :=
  if readable then Except.ok (fs.map Prod.fst) else Except.error "EACCES"

/-- The `uploads` query resolver: `() => readdir(UPLOAD_DIRECTORY_URL)`,
returning the enumeration (or its failure) directly. -/
def uploads (readable : Bool) (fs : FS) : Except String (List String) :=
  readdir readable fs

/-- The stored filename a task writes to. -/
def taskName (t : SinkTask) : String :=
  storedName t.1 t.2

theorem storeOutcome_eq_ok (env : SinkEnv) (f : FileUpload) (v : FileArgs) :
    storeOutcome env f = Except.ok v ↔
      f.streamError = none ∧ v = ⟨storedName env f, f.mimetype, f.encoding⟩ := by
  cases h : f.streamError with
  | none =>
      simp [storeOutcome, storeUpload, h]
      exact eq_comm
  | some e =>
      simp [storeOutcome, storeUpload, h]

theorem storeOutcome_eq_error (env : SinkEnv) (f : FileUpload) (e : String) :
    storeOutcome env f = Except.error e ↔ f.streamError = some e := by
  cases h : f.streamError <;>
    simp [storeOutcome, storeUpload, h]

theorem collectSettled_fst (l : List (Except String FileArgs)) :
    (collectSettled l).1 = l.filterMap okOf := by
  induction l with
  | nil => rfl
  | cons r rest ih =>
      cases r <;> simp [collectSettled, okOf, List.filterMap_cons, ih]

theorem collectSettled_snd (l : List (Except String FileArgs)) :
    (collectSettled l).2 = l.filterMap errOf := by
  induction l with
  | nil => rfl
  | cons r rest ih =>
      cases r <;> simp [collectSettled, errOf, List.filterMap_cons, ih]

theorem multipleUpload2_fst (completion : List SinkTask) (fs : FS) :
    (multipleUpload2 completion fs).1 = runTasksFs completion fs := by
  induction completion generalizing fs with
  | nil => rfl
  | cons t rest ih =>
      cases h : (storeUpload t.1 t.2 fs).2 <;>
        simp [multipleUpload2, h, runTasksFs, List.foldl_cons, runTask, ih]

theorem multipleUpload2_stored (completion : List SinkTask) (fs : FS) :
    (multipleUpload2 completion fs).2.1 = (settleAll completion).filterMap okOf := by
  induction completion generalizing fs with
  | nil => rfl
  | cons t rest ih =>
      have hs := storeUpload_snd t.1 t.2 fs
      cases h : (storeUpload t.1 t.2 fs).2 <;>
        simp [multipleUpload2, h, settleAll, List.filterMap_cons, okOf, ← hs, h, ih]

theorem multipleUpload2_logs (completion : List SinkTask) (fs : FS) :
    (multipleUpload2 completion fs).2.2 = (settleAll completion).filterMap errOf := by
  induction completion generalizing fs with
  | nil => rfl
  | cons t rest ih =>
      have hs := storeUpload_snd t.1 t.2 fs
      cases h : (storeUpload t.1 t.2 fs).2 <;>
        simp [multipleUpload2, h, settleAll, List.filterMap_cons, errOf, ← hs, h, ih]

theorem okOf_errOf_length (l : List (Except String FileArgs)) :
    (l.filterMap okOf).length + (l.filterMap errOf).length = l.length := by
  induction l with
  | nil => rfl
  | cons r rest ih =>
      cases r <;>
        simp [List.filterMap_cons, okOf, errOf, ← ih] <;> omega

theorem filterMap_okOf_all_error (l : List (Except String FileArgs))
    (h : ∀ r ∈ l, ∃ e, r = Except.error e) : l.filterMap okOf = [] := by
  induction l with
  | nil => rfl
  | cons r rest ih =>
      obtain ⟨e, he⟩ := h r (List.mem_cons_self r rest)
      subst he
      have hnone : okOf (Except.error e) = none := rfl
      rw [List.filterMap_cons, hnone]
      exact ih (fun r hr => h r (List.mem_cons_of_mem _ hr))

theorem fsLookup_runTask_other (fs : FS) (t : SinkTask) (m : String)
    (h : m ≠ taskName t) : fsLookup (runTask fs t) m = fsLookup fs m := by
  cases hse : t.2.streamError with
  | none =>
      simp [runTask, storeUpload, hse, fsLookup_fsWrite_other _ _ _ _ h, taskName] at h ⊢
      exact fsLookup_fsWrite_other _ _ _ _ h
  | some e =>
      by_cases hu : t.1.unlinkOk <;>
        simp [runTask, storeUpload, hse, hu, taskName] at h ⊢
      · rw [fsLookup_fsUnlink_other _ _ _ h, fsLookup_fsWrite_other _ _ _ _ h]
      · exact fsLookup_fsWrite_other _ _ _ _ h

theorem fsLookup_runTasksFs_other (completion : List SinkTask) (fs : FS)
    (m : String) (h : m ∉ completion.map taskName) :
    fsLookup (runTasksFs completion fs) m = fsLookup fs m := by
  induction completion generalizing fs with
  | nil => rfl
  | cons t rest ih =>
      rw [List.map_cons] at h
      simp only [List.mem_cons, not_or] at h
      rw [runTasksFs, List.foldl_cons, ← runTasksFs, ih _ h.2,
        fsLookup_runTask_other fs t m h.1]

theorem fsUnlink_fsUnlink (fs : FS) (name : String) :
    fsUnlink (fsUnlink fs name) name = fsUnlink fs name :=
  fsUnlink_of_lookup_none _ _ (fsLookup_fsUnlink_self fs name)

theorem fsUnlink_fsWrite (fs : FS) (name : String) (c : List Nat) :
    fsUnlink (fsWrite fs name c) name = fsUnlink fs name := by
  simp [fsWrite, fsUnlink, List.filter_cons]

theorem fsLookup_runTask_success (fs : FS) (t : SinkTask)
    (h : t.2.streamError = none) :
    fsLookup (runTask fs t) (taskName t) = some t.2.chunks.flatten := by
  simp [runTask, storeUpload, h, taskName, fsLookup_fsWrite_self]

theorem fsLookup_runTasksFs_success (completion : List SinkTask) (t : SinkTask)
    (hmem : t ∈ completion) (hnodup : (completion.map taskName).Nodup) :
    ∀ fs : FS, t.2.streamError = none →
      fsLookup (runTasksFs completion fs) (taskName t) = some t.2.chunks.flatten := by
  induction completion with
  | nil => cases hmem
  | cons s rest ih =>
      intro fs h
      rw [List.map_cons, List.nodup_cons] at hnodup
      rw [runTasksFs, List.foldl_cons, ← runTasksFs]
      rcases List.mem_cons.mp hmem with heq | hmem2
      · subst heq
        rw [fsLookup_runTasksFs_other rest _ _ hnodup.1,
          fsLookup_runTask_success fs t h]
      · exact ih hmem2 hnodup.2 (runTask fs s) h

/-- Sample environmental nondeterminism used for concrete instantiations. -/
def sampleEnv : SinkEnv := ⟨"abc123", true⟩

/-- A second sample environment for two-task batches. -/
def sampleEnv2 : SinkEnv := ⟨"def456", true⟩

/-- A sample upload whose stream finishes successfully. -/
def sampleOk : FileUpload := ⟨"react.png", "image/png", "7bit", [[1, 2], [3]], none⟩

/-- A sample upload whose stream errors after one delivered chunk. -/
def sampleErr : FileUpload := ⟨"logo.svg", "image/svg+xml", "7bit", [[9]], some "boom"⟩

/-- C2: when the write or the upstream stream of an upload fails, the sink
rejects with the original failure whatever the outcome of the `unlink`
(the unlink callback ignores its own error), and whenever the deletion
succeeds, no file is left at the target path. -/
theorem storeUpload_cleanup (env : SinkEnv) (f : FileUpload) (fs : FS)
    (e : String) (herr : f.streamError = some e) :
    (storeUpload env f fs).2 = Except.error e
    ∧ (env.unlinkOk = true →
        fsLookup (storeUpload env f fs).1 (storedName env f) = none) := by
  constructor
  · simp [storeUpload, herr]
  · intro hu
    simp [storeUpload, herr, hu]
    exact fsLookup_fsUnlink_self _ _

/-- Witness for C2 at a concrete failing upload. -/
theorem storeUpload_cleanup_witness :
    sampleErr.streamError = some "boom"
    ∧ ((storeUpload sampleEnv sampleErr []).2 = Except.error "boom"
      ∧ (sampleEnv.unlinkOk = true →
          fsLookup (storeUpload sampleEnv sampleErr []).1
            (storedName sampleEnv sampleErr) = none)) :=
  ⟨rfl, storeUpload_cleanup sampleEnv sampleErr [] "boom" rfl⟩

/-- C3: a successful store resolves with the stored filename
`<random-id>-<original-filename>`, which therefore ends with the original
client-supplied filename. -/
theorem storeUpload_filename_pattern (env : SinkEnv) (f : FileUpload) (fs : FS)
    (hok : f.streamError = none) :
    (storeUpload env f fs).2 =
      Except.ok ⟨env.rid ++ "-" ++ f.filename, f.mimetype, f.encoding⟩
    ∧ ∃ p : String, env.rid ++ "-" ++ f.filename = p ++ f.filename := by
  constructor
  · simp [storeUpload, hok, storedName]
  · exact ⟨env.rid ++ "-", rfl⟩

/-- Witness for C3 at a concrete successful upload. -/
theorem storeUpload_filename_pattern_witness :
    sampleOk.streamError = none
    ∧ ((storeUpload sampleEnv sampleOk []).2 =
        Except.ok ⟨sampleEnv.rid ++ "-" ++ sampleOk.filename,
          sampleOk.mimetype, sampleOk.encoding⟩
      ∧ ∃ p : String,
          sampleEnv.rid ++ "-" ++ sampleOk.filename = p ++ sampleOk.filename) :=
  ⟨rfl, storeUpload_filename_pattern sampleEnv sampleOk [] rfl⟩

/-- C4: a successful store returns the handle's mimetype and encoding
unchanged. -/
theorem storeUpload_metadata_preserved (env : SinkEnv) (f : FileUpload)
    (fs : FS) (hok : f.streamError = none) :
    ∃ out : FileArgs, (storeUpload env f fs).2 = Except.ok out
      ∧ out.mimetype = f.mimetype ∧ out.encoding = f.encoding :=
  ⟨⟨storedName env f, f.mimetype, f.encoding⟩, by simp [storeUpload, hok], rfl, rfl⟩

/-- Witness for C4: storing a handle with mimetype `image/png` and encoding
`7bit` keeps both values. -/
theorem storeUpload_metadata_preserved_witness :
    sampleOk.streamError = none
    ∧ sampleOk.mimetype = "image/png" ∧ sampleOk.encoding = "7bit"
    ∧ ∃ out : FileArgs, (storeUpload sampleEnv sampleOk []).2 = Except.ok out
        ∧ out.mimetype = sampleOk.mimetype ∧ out.encoding = sampleOk.encoding :=
  ⟨rfl, rfl, rfl, storeUpload_metadata_preserved sampleEnv sampleOk [] rfl⟩

theorem multipleUpload_stored (tasks completion : List SinkTask) (fs : FS) :
    (multipleUpload tasks completion fs).2.1 = (settleAll tasks).filterMap okOf :=
  collectSettled_fst (settleAll tasks)

theorem multipleUpload_logs (tasks completion : List SinkTask) (fs : FS) :
    (multipleUpload tasks completion fs).2.2 = (settleAll tasks).filterMap errOf :=
  collectSettled_snd (settleAll tasks)

theorem multipleUpload_fst (tasks completion : List SinkTask) (fs : FS) :
    (multipleUpload tasks completion fs).1 = runTasksFs completion fs :=
  rfl

/-- A second sample upload whose stream finishes successfully. -/
def sampleOk2 : FileUpload := ⟨"a.txt", "text/plain", "7bit", [[4]], none⟩

/-- C1: `multipleUpload` never fails as a whole: every per-handle failure is
turned into a logged diagnostic and dropped from the returned sequence,
every success is kept (both in the returned sequence and on disk, so one
failure rolls nothing back), and an all-failures batch yields the empty
sequence as an ordinary result. -/
theorem multipleUpload_never_fails (tasks completion : List SinkTask) (fs : FS)
    (hperm : completion.Perm tasks)
    (hnodup : (completion.map taskName).Nodup) :
    (multipleUpload tasks completion fs).2.1 = (settleAll tasks).filterMap okOf
    ∧ (multipleUpload tasks completion fs).2.2 = (settleAll tasks).filterMap errOf
    ∧ ((∀ t ∈ tasks, ∃ e, storeOutcome t.1 t.2 = Except.error e) →
        (multipleUpload tasks completion fs).2.1 = [])
    ∧ (∀ t ∈ tasks, ∀ v : FileArgs, storeOutcome t.1 t.2 = Except.ok v →
        v ∈ (multipleUpload tasks completion fs).2.1
        ∧ fsLookup (multipleUpload tasks completion fs).1 (taskName t) =
            some t.2.chunks.flatten) := by
  have hst := multipleUpload_stored tasks completion fs
  have hlg := multipleUpload_logs tasks completion fs
  refine ⟨hst, hlg, ?_, ?_⟩
  · intro hall
    rw [hst]
    refine filterMap_okOf_all_error _ ?_
    intro r hr
    rw [settleAll] at hr
    obtain ⟨t, ht, rfl⟩ := List.mem_map.mp hr
    exact hall t ht
  · intro t ht v hv
    constructor
    · rw [hst]
      refine List.mem_filterMap.mpr ⟨storeOutcome t.1 t.2, ?_, ?_⟩
      · exact List.mem_map.mpr ⟨t, ht, rfl⟩
      · rw [hv]; rfl
    · rw [multipleUpload_fst]
      have hse : t.2.streamError = none := ((storeOutcome_eq_ok _ _ _).mp hv).1
      exact fsLookup_runTasksFs_success completion t (hperm.mem_iff.mpr ht)
        hnodup fs hse

/-- Witness for C1: a two-handle batch where the first succeeds and the
second fails, completing in reversed order. -/
theorem multipleUpload_never_fails_witness :
    ([((sampleEnv2, sampleErr) : SinkTask), (sampleEnv, sampleOk)].Perm
        [(sampleEnv, sampleOk), (sampleEnv2, sampleErr)])
    ∧ (([((sampleEnv2, sampleErr) : SinkTask), (sampleEnv, sampleOk)].map
        taskName).Nodup)
    ∧ ((multipleUpload [(sampleEnv, sampleOk), (sampleEnv2, sampleErr)]
          [(sampleEnv2, sampleErr), (sampleEnv, sampleOk)] []).2.1 =
        (settleAll [(sampleEnv, sampleOk), (sampleEnv2, sampleErr)]).filterMap okOf
      ∧ (multipleUpload [(sampleEnv, sampleOk), (sampleEnv2, sampleErr)]
          [(sampleEnv2, sampleErr), (sampleEnv, sampleOk)] []).2.2 =
        (settleAll [(sampleEnv, sampleOk), (sampleEnv2, sampleErr)]).filterMap errOf
      ∧ ((∀ t ∈ [((sampleEnv, sampleOk) : SinkTask), (sampleEnv2, sampleErr)],
            ∃ e, storeOutcome t.1 t.2 = Except.error e) →
          (multipleUpload [(sampleEnv, sampleOk), (sampleEnv2, sampleErr)]
            [(sampleEnv2, sampleErr), (sampleEnv, sampleOk)] []).2.1 = [])
      ∧ (∀ t ∈ [((sampleEnv, sampleOk) : SinkTask), (sampleEnv2, sampleErr)],
          ∀ v : FileArgs, storeOutcome t.1 t.2 = Except.ok v →
            v ∈ (multipleUpload [(sampleEnv, sampleOk), (sampleEnv2, sampleErr)]
              [(sampleEnv2, sampleErr), (sampleEnv, sampleOk)] []).2.1
            ∧ fsLookup (multipleUpload [(sampleEnv, sampleOk),
                  (sampleEnv2, sampleErr)]
                [(sampleEnv2, sampleErr), (sampleEnv, sampleOk)] []).1
                (taskName t) = some t.2.chunks.flatten)) :=
  ⟨by decide, by decide,
    multipleUpload_never_fails
      [(sampleEnv, sampleOk), (sampleEnv2, sampleErr)]
      [(sampleEnv2, sampleErr), (sampleEnv, sampleOk)] []
      (by decide) (by decide)⟩

/-- C5 counterexample: two uploads that both succeed, with the second one
finishing first.  The `Promise.allSettled` variant of `multipleUpload`
still returns the stored files in submission order, which differs from
the sequence in completion order, so its insertion order does not follow
the completion order of the sink invocations. -/
theorem multipleUpload_order_cex :
    (multipleUpload [(sampleEnv, sampleOk), (sampleEnv2, sampleOk2)]
        [(sampleEnv2, sampleOk2), (sampleEnv, sampleOk)] []).2.1 =
      [⟨"abc123-react.png", "image/png", "7bit"⟩,
       ⟨"def456-a.txt", "text/plain", "7bit"⟩]
    ∧ (settleAll [(sampleEnv2, sampleOk2), (sampleEnv, sampleOk)]).filterMap okOf =
      [⟨"def456-a.txt", "text/plain", "7bit"⟩,
       ⟨"abc123-react.png", "image/png", "7bit"⟩]
    ∧ (multipleUpload [(sampleEnv, sampleOk), (sampleEnv2, sampleOk2)]
        [(sampleEnv2, sampleOk2), (sampleEnv, sampleOk)] []).2.1 ≠
      (settleAll [(sampleEnv2, sampleOk2), (sampleEnv, sampleOk)]).filterMap okOf := by
  refine ⟨by decide, by decide, by decide⟩

/-- C5 amended: the `Promise.all` + `try/catch` variant of `multipleUpload`
returns the stored files in the completion order of the sink invocations,
while the `Promise.allSettled` variant always returns them in submission
(input) order, whatever the completion order was. -/
theorem multipleUpload_order (tasks completion : List SinkTask) (fs fs' : FS) :
    (multipleUpload2 completion fs').2.1 = (settleAll completion).filterMap okOf
    ∧ (multipleUpload tasks completion fs).2.1 = (settleAll tasks).filterMap okOf :=
  ⟨multipleUpload2_stored completion fs', multipleUpload_stored tasks completion fs⟩

/-- C6: an empty batch returns the empty sequence, leaves the storage
location untouched, settles zero sink invocations and logs no
diagnostics, in both `multipleUpload` variants. -/
theorem multipleUpload_empty (fs fs' : FS) :
    multipleUpload [] [] fs = (fs, [], [])
    ∧ multipleUpload2 [] fs' = (fs', [], [])
    ∧ settleAll [] = [] :=
  ⟨rfl, rfl, rfl⟩

/-- C7: the join is a full "wait for all, fail none" join: every launched
invocation's final state (success or failure) is accounted for exactly
once in the collected result — successes and logged failures together
always number exactly the launched tasks, in both variants, so no failure
aborts the join and no strict subset of the completions determines the
result. -/
theorem multipleUpload_full_join (tasks completion : List SinkTask) (fs fs' : FS)
    (hperm : completion.Perm tasks) :
    (multipleUpload tasks completion fs).2.1.length
      + (multipleUpload tasks completion fs).2.2.length = tasks.length
    ∧ (multipleUpload2 completion fs').2.1.length
      + (multipleUpload2 completion fs').2.2.length = tasks.length := by
  constructor
  · rw [multipleUpload_stored, multipleUpload_logs, okOf_errOf_length,
      settleAll, List.length_map]
  · rw [multipleUpload2_stored, multipleUpload2_logs, okOf_errOf_length,
      settleAll, List.length_map, hperm.length_eq]

/-- Witness for C7: a mixed success/failure batch completing in reversed
order still accounts for both invocations. -/
theorem multipleUpload_full_join_witness :
    ([((sampleEnv2, sampleErr) : SinkTask), (sampleEnv, sampleOk)].Perm
        [(sampleEnv, sampleOk), (sampleEnv2, sampleErr)])
    ∧ ((multipleUpload [(sampleEnv, sampleOk), (sampleEnv2, sampleErr)]
          [(sampleEnv2, sampleErr), (sampleEnv, sampleOk)] []).2.1.length
        + (multipleUpload [(sampleEnv, sampleOk), (sampleEnv2, sampleErr)]
            [(sampleEnv2, sampleErr), (sampleEnv, sampleOk)] []).2.2.length =
        [((sampleEnv, sampleOk) : SinkTask), (sampleEnv2, sampleErr)].length
      ∧ (multipleUpload2 [(sampleEnv2, sampleErr), (sampleEnv, sampleOk)]
            []).2.1.length
        + (multipleUpload2 [(sampleEnv2, sampleErr), (sampleEnv, sampleOk)]
            []).2.2.length =
        [((sampleEnv, sampleOk) : SinkTask), (sampleEnv2, sampleErr)].length) :=
  ⟨by decide,
    multipleUpload_full_join
      [(sampleEnv, sampleOk), (sampleEnv2, sampleErr)]
      [(sampleEnv2, sampleErr), (sampleEnv, sampleOk)] [] [] (by decide)⟩

/-- C8: the `uploads` query returns `readdir` over the storage location
directly — every entry name, unfiltered and unpaginated, in enumeration
order — succeeding exactly when the location is readable and otherwise
propagating the storage error unchanged, with no retry. -/
theorem uploads_spec (readable : Bool) (fs : FS) :
    uploads readable fs = readdir readable fs
    ∧ uploads true fs = Except.ok (fs.map Prod.fst)
    ∧ uploads false fs = Except.error "EACCES" :=
  ⟨rfl, by simp [uploads, readdir], by simp [uploads, readdir]⟩

/-- C9: frame property of the sink.  Assuming the generated stored name is
fresh and the cleanup `unlink` succeeds: a successful store adds exactly
its one file and leaves every other entry untouched, a failed store
leaves the storage location exactly as it was, lookups of any other name
are unchanged, and no batch ever deletes a file none of its tasks is
named after. -/
theorem storeUpload_frame (env : SinkEnv) (f : FileUpload) (fs : FS)
    (n : String) (tasks : List SinkTask) (fs0 : FS) (m : String)
    (hfresh : fsLookup fs (storedName env f) = none)
    (hunl : env.unlinkOk = true)
    (hn : n ≠ storedName env f)
    (hm : m ∉ tasks.map taskName) :
    (f.streamError = none →
      (storeUpload env f fs).1 = (storedName env f, f.chunks.flatten) :: fs)
    ∧ (∀ e : String, f.streamError = some e → (storeUpload env f fs).1 = fs)
    ∧ fsLookup (storeUpload env f fs).1 n = fsLookup fs n
    ∧ fsLookup (runTasksFs tasks fs0) m = fsLookup fs0 m := by
  refine ⟨?_, ?_, ?_, fsLookup_runTasksFs_other tasks fs0 m hm⟩
  · intro hok
    simp [storeUpload, hok, fsWrite, fsUnlink_of_lookup_none fs _ hfresh]
  · intro e herr
    simp [storeUpload, herr, hunl, fsUnlink_fsWrite,
      fsUnlink_of_lookup_none fs _ hfresh]
  · exact fsLookup_runTask_other fs (env, f) n hn

/-- Witness for C9 at concrete inputs: a fresh name over an empty location,
an unrelated lookup name, and a batch whose task names avoid a
pre-existing file. -/
theorem storeUpload_frame_witness :
    fsLookup [] (storedName sampleEnv sampleOk) = none
    ∧ sampleEnv.unlinkOk = true
    ∧ ("nofile" ≠ storedName sampleEnv sampleOk)
    ∧ ("keep" ∉ [((sampleEnv2, sampleErr) : SinkTask)].map taskName)
    ∧ ((sampleOk.streamError = none →
        (storeUpload sampleEnv sampleOk []).1 =
          (storedName sampleEnv sampleOk, sampleOk.chunks.flatten) :: [])
      ∧ (∀ e : String, sampleOk.streamError = some e →
          (storeUpload sampleEnv sampleOk []).1 = [])
      ∧ fsLookup (storeUpload sampleEnv sampleOk []).1 "nofile" =
          fsLookup [] "nofile"
      ∧ fsLookup (runTasksFs [(sampleEnv2, sampleErr)] [("keep", [1])]) "keep" =
          fsLookup [("keep", [1])] "keep") :=
  ⟨rfl, rfl, by decide, by decide,
    storeUpload_frame sampleEnv sampleOk [] "nofile"
      [(sampleEnv2, sampleErr)] [("keep", [1])] "keep"
      rfl rfl (by decide) (by decide)⟩

/-- C10: the two `multipleUpload` implementations are equivalent up to
ordering: given the same launched tasks with the same per-task outcomes,
the `Promise.all`/push variant returns a permutation of the
`Promise.allSettled` variant's stored files and a permutation of its
logged diagnostics. -/
theorem multipleUpload_variants_equiv (tasks completion : List SinkTask)
    (fs fs' : FS) (hperm : completion.Perm tasks) :
    ((multipleUpload2 completion fs').2.1).Perm
      ((multipleUpload tasks completion fs).2.1)
    ∧ ((multipleUpload2 completion fs').2.2).Perm
      ((multipleUpload tasks completion fs).2.2) := by
  have hsett : (settleAll completion).Perm (settleAll tasks) := hperm.map _
  constructor
  · rw [multipleUpload2_stored, multipleUpload_stored]
    exact hsett.filterMap okOf
  · rw [multipleUpload2_logs, multipleUpload_logs]
    exact hsett.filterMap errOf

/-- Witness for C10: both variants on a mixed batch completing in reversed
order produce the same stored files and diagnostics up to order. -/
theorem multipleUpload_variants_equiv_witness :
    ([((sampleEnv2, sampleErr) : SinkTask), (sampleEnv, sampleOk)].Perm
        [(sampleEnv, sampleOk), (sampleEnv2, sampleErr)])
    ∧ (((multipleUpload2 [(sampleEnv2, sampleErr), (sampleEnv, sampleOk)]
          []).2.1).Perm
        ((multipleUpload [(sampleEnv, sampleOk), (sampleEnv2, sampleErr)]
          [(sampleEnv2, sampleErr), (sampleEnv, sampleOk)] []).2.1)
      ∧ ((multipleUpload2 [(sampleEnv2, sampleErr), (sampleEnv, sampleOk)]
          []).2.2).Perm
        ((multipleUpload [(sampleEnv, sampleOk), (sampleEnv2, sampleErr)]
          [(sampleEnv2, sampleErr), (sampleEnv, sampleOk)] []).2.2)) :=
  ⟨by decide,
    multipleUpload_variants_equiv
      [(sampleEnv, sampleOk), (sampleEnv2, sampleErr)]
      [(sampleEnv2, sampleErr), (sampleEnv, sampleOk)] [] [] (by decide)⟩
